import Mathlib

/-!
# gms_services, Windows registration shim

Embedding of `windows/gms_services_plugin_c_api.cpp`.  The translation unit holds one
function, `GmsServicesPluginCApiRegisterWithRegistrar`, whose body is the single statement

    gms_services::GmsServicesPlugin::RegisterWithRegistrar(
        flutter::PluginRegistrarManager::GetInstance()
            ->GetRegistrar<flutter::PluginRegistrarWindows>(registrar));

The function has no local or static variable, no branch, no loop and no handler for a
failure of a callee.  Both callees live outside the file: the lookup belongs to the host
framework, the registration is declared in `gms_services_plugin.h` and defined elsewhere.
They are therefore kept abstract: the shim is a piece of straight-line code over two
external operations, and an environment that supplies the operations runs it.
-/

namespace GmsServices

/-! ## Code over the two external operations -/

/-- One call the shim makes on its environment, with the argument it passes.
`GetRegistrar h` stands for
`PluginRegistrarManager::GetInstance()->GetRegistrar<PluginRegistrarWindows>(h)`,
`RegisterWithRegistrar r` for `GmsServicesPlugin::RegisterWithRegistrar(r)`.
`H` is the type of registrar handles (`FlutterDesktopPluginRegistrarRef`), `R` the type of
typed registrars (`PluginRegistrarWindows *`). -/
inductive Call (H R : Type) where
  | GetRegistrar (registrar : H)
  | RegisterWithRegistrar (registrar : R)
  deriving DecidableEq, Repr

/-- Straight-line code of a `void` function over the two external operations: return, or
look a handle up and go on with the value that comes back, or register and go on. -/
inductive Prog (H R : Type) where
  | ret
  | GetRegistrar (registrar : H) (k : R → Prog H R)
  | RegisterWithRegistrar (registrar : R) (k : Prog H R)

/-- Body of `GmsServicesPluginCApiRegisterWithRegistrar(registrar)`: the argument expression
is evaluated first (the lookup of `registrar`), its value is handed to
`RegisterWithRegistrar`, and the function returns. -/
def GmsServicesPluginCApiRegisterWithRegistrar {H R : Type} (registrar : H) : Prog H R :=
  Prog.GetRegistrar registrar fun typed =>
    Prog.RegisterWithRegistrar typed Prog.ret

/-! ## Environments whose operations return -/

/-- An environment for the shim.  `σ` is the state of the process outside the shim: the
registrar manager singleton with its table of registrars, the plugin registry, the engine.
Both operations may read and change it.  `GetInstance()` picks the singleton out of this
state, so it is part of the lookup and not a call of its own. -/
structure Host (H R σ : Type) where
  GetRegistrar : H → σ → R × σ
  RegisterWithRegistrar : R → σ → σ

/-- Run code in an environment from state `s`: the calls made, in order, and the state the
environment is left in. -/
def Prog.run {H R σ : Type} (host : Host H R σ) : Prog H R → σ → List (Call H R) × σ
  | Prog.ret, s => ([], s)
  | Prog.GetRegistrar h k, s =>
      let found := host.GetRegistrar h s
      let rest := (k found.1).run host found.2
      (Call.GetRegistrar h :: rest.1, rest.2)
  | Prog.RegisterWithRegistrar r k, s =>
      let rest := k.run host (host.RegisterWithRegistrar r s)
      (Call.RegisterWithRegistrar r :: rest.1, rest.2)

/-- The typed registrars passed to `RegisterWithRegistrar` in a list of calls, in order. -/
def registrations {H R : Type} : List (Call H R) → List R
  | [] => []
  | Call.GetRegistrar _ :: cs => registrations cs
  | Call.RegisterWithRegistrar r :: cs => r :: registrations cs

/-- The handles passed to the manager lookup in a list of calls, in order. -/
def lookups {H R : Type} : List (Call H R) → List H
  | [] => []
  | Call.GetRegistrar h :: cs => h :: lookups cs
  | Call.RegisterWithRegistrar _ :: cs => lookups cs

/-! ## Environments whose operations may fail -/

/-- An environment whose operations may fail with a value of `ε` (a C++ exception, an
abort) instead of returning.  The state they leave behind is reported either way. -/
structure FallibleHost (H R ε σ : Type) where
  GetRegistrar : H → σ → Except ε R × σ
  RegisterWithRegistrar : R → σ → Except ε Unit × σ

/-- What a run in a fallible environment leaves: the calls made, the state, and whether the
code returned or failed. -/
structure Outcome (H R ε σ : Type) where
  calls : List (Call H R)
  state : σ
  result : Except ε Unit

/-- Run code in a fallible environment.  The code has no handler, so a failing call ends
the run with that failure and nothing after it is executed. -/
def Prog.runE {H R ε σ : Type} (host : FallibleHost H R ε σ) :
    Prog H R → σ → Outcome H R ε σ
  | Prog.ret, s => ⟨[], s, Except.ok ()⟩
  | Prog.GetRegistrar h k, s =>
      match host.GetRegistrar h s with
      | (Except.error e, s1) => ⟨[Call.GetRegistrar h], s1, Except.error e⟩
      | (Except.ok r, s1) =>
          let rest := (k r).runE host s1
          ⟨Call.GetRegistrar h :: rest.calls, rest.state, rest.result⟩
  | Prog.RegisterWithRegistrar r k, s =>
      match host.RegisterWithRegistrar r s with
      | (Except.error e, s1) => ⟨[Call.RegisterWithRegistrar r], s1, Except.error e⟩
      | (Except.ok _, s1) =>
          let rest := k.runE host s1
          ⟨Call.RegisterWithRegistrar r :: rest.calls, rest.state, rest.result⟩

/-- An environment whose operations return, seen as one whose operations never fail. -/
def Host.toFallible {H R σ : Type} (ε : Type) (host : Host H R σ) : FallibleHost H R ε σ where
  GetRegistrar h s := (Except.ok (host.GetRegistrar h s).1, (host.GetRegistrar h s).2)
  RegisterWithRegistrar r s := (Except.ok (), host.RegisterWithRegistrar r s)

/-! ## Calling the shim several times -/

/-- The host calls the shim once for each handle of a list, in turn.  Every call starts the
body afresh; the only thing carried from one call to the next is the state of the
environment. -/
def callEach {H R σ : Type} (host : Host H R σ) : List H → σ → List (Call H R) × σ
  | [], s => ([], s)
  | h :: hs, s =>
      let first := (GmsServicesPluginCApiRegisterWithRegistrar h).run host s
      let rest := callEach host hs first.2
      (first.1 ++ rest.1, rest.2)

/-- Reference for the registrations a list of handles should give, written on the
environment alone: resolve the first handle in the current state, register what came back,
and go on with the remaining handles in the state this leaves. -/
def resolutions {H R σ : Type} (host : Host H R σ) : List H → σ → List R
  | [], _ => []
  | h :: hs, s =>
      let found := host.GetRegistrar h s
      found.1 :: resolutions host hs (host.RegisterWithRegistrar found.1 found.2)

/-! ## A concrete environment

Handles are `Option Nat`, `none` being the null handle.  The manager keeps a table of the
handles it has seen and hands out the position of a handle in the table, adding the handle
when it is new; registration appends the registrar to the registry. -/

/-- State of the sample environment: the manager table and the plugin registry. -/
structure DemoState where
  table : List (Option Nat)
  registry : List Nat
  deriving DecidableEq, Repr

/-- Sample environment whose operations return. -/
def demoHost : Host (Option Nat) Nat DemoState where
  GetRegistrar h s :=
    if h ∈ s.table then (s.table.indexOf h, s)
    else (s.table.length, { s with table := s.table ++ [h] })
  RegisterWithRegistrar r s := { s with registry := s.registry ++ [r] }

/-- Sample environment that fails: the lookup rejects the null handle with code 1, and
registration rejects a registrar that is already in the registry with code 2. -/
def demoFallibleHost : FallibleHost (Option Nat) Nat Nat DemoState where
  GetRegistrar h s :=
    match h with
    | none => (Except.error 1, s)
    | some _ =>
        if h ∈ s.table then (Except.ok (s.table.indexOf h), s)
        else (Except.ok s.table.length, { s with table := s.table ++ [h] })
  RegisterWithRegistrar r s :=
    if r ∈ s.registry then (Except.error 2, s)
    else (Except.ok (), { s with registry := s.registry ++ [r] })

/-- Initial state of the sample environments. -/
def demoInit : DemoState := ⟨[], []⟩

/-! ## Helper lemmas -/

theorem run_shim {H R σ : Type} (host : Host H R σ) (h : H) (s : σ) :
    (GmsServicesPluginCApiRegisterWithRegistrar h).run host s =
      ([Call.GetRegistrar h, Call.RegisterWithRegistrar (host.GetRegistrar h s).1],
        host.RegisterWithRegistrar (host.GetRegistrar h s).1 (host.GetRegistrar h s).2) := rfl

theorem callEach_append {H R σ : Type} (host : Host H R σ) (hs1 hs2 : List H) (s : σ) :
    callEach host (hs1 ++ hs2) s =
      ((callEach host hs1 s).1 ++ (callEach host hs2 (callEach host hs1 s).2).1,
        (callEach host hs2 (callEach host hs1 s).2).2) := by
  induction hs1 generalizing s with
  | nil => simp [callEach]
  | cons h hs ih => simp [callEach, ih]

/-- A fallible run in an environment that never fails is the plain run, and it returns. -/
theorem runE_toFallible {H R ε σ : Type} (host : Host H R σ) (p : Prog H R) (s : σ) :
    p.runE (host.toFallible ε) s = ⟨(p.run host s).1, (p.run host s).2, Except.ok ()⟩ := by
  induction p generalizing s with
  | ret => rfl
  | GetRegistrar h k ih =>
      have step := ih (host.GetRegistrar h s).1 (host.GetRegistrar h s).2
      simp only [Prog.runE, Prog.run]
      rw [step]
  | RegisterWithRegistrar r k ih =>
      have step := ih (host.RegisterWithRegistrar r s)
      simp only [Prog.runE, Prog.run]
      show Outcome.mk
          (Call.RegisterWithRegistrar r ::
            (k.runE (host.toFallible ε) (host.RegisterWithRegistrar r s)).calls)
          (k.runE (host.toFallible ε) (host.RegisterWithRegistrar r s)).state
          (k.runE (host.toFallible ε) (host.RegisterWithRegistrar r s)).result = _
      rw [step]

theorem callEach_cons {H R σ : Type} (host : Host H R σ) (h : H) (hs : List H) (s : σ) :
    callEach host (h :: hs) s =
      (Call.GetRegistrar h :: Call.RegisterWithRegistrar (host.GetRegistrar h s).1 ::
          (callEach host hs
            (host.RegisterWithRegistrar (host.GetRegistrar h s).1 (host.GetRegistrar h s).2)).1,
        (callEach host hs
          (host.RegisterWithRegistrar (host.GetRegistrar h s).1 (host.GetRegistrar h s).2)).2) := rfl

theorem registrations_callEach {H R σ : Type} (host : Host H R σ) (hs : List H) (s : σ) :
    registrations (callEach host hs s).1 = resolutions host hs s := by
  induction hs generalizing s with
  | nil => rfl
  | cons h hs ih => rw [callEach_cons]; simp only [registrations, resolutions, ih]

theorem lookups_callEach {H R σ : Type} (host : Host H R σ) (hs : List H) (s : σ) :
    lookups (callEach host hs s).1 = hs := by
  induction hs generalizing s with
  | nil => rfl
  | cons h hs ih => rw [callEach_cons]; simp only [lookups, ih]

theorem length_resolutions {H R σ : Type} (host : Host H R σ) (hs : List H) (s : σ) :
    (resolutions host hs s).length = hs.length := by
  induction hs generalizing s with
  | nil => rfl
  | cons h hs ih => simp [resolutions, ih]

theorem length_callEach {H R σ : Type} (host : Host H R σ) (hs : List H) (s : σ) :
    (callEach host hs s).1.length = 2 * hs.length := by
  induction hs generalizing s with
  | nil => rfl
  | cons h hs ih => rw [callEach_cons]; simp only [List.length_cons, ih]; omega

theorem runE_shim {H R ε σ : Type} (host : FallibleHost H R ε σ) (h : H) (s : σ) :
    (GmsServicesPluginCApiRegisterWithRegistrar h).runE host s =
      (match host.GetRegistrar h s with
        | (Except.error e, s1) => ⟨[Call.GetRegistrar h], s1, Except.error e⟩
        | (Except.ok r, s1) =>
            match host.RegisterWithRegistrar r s1 with
            | (Except.error e, s2) =>
                ⟨[Call.GetRegistrar h, Call.RegisterWithRegistrar r], s2, Except.error e⟩
            | (Except.ok _, s2) =>
                ⟨[Call.GetRegistrar h, Call.RegisterWithRegistrar r], s2, Except.ok ()⟩) := by
  simp only [GmsServicesPluginCApiRegisterWithRegistrar, Prog.runE]
  rcases host.GetRegistrar h s with ⟨_ | r, s1⟩
  · rfl
  · simp only []
    rcases host.RegisterWithRegistrar r s1 with ⟨_ | u, s2⟩ <;> rfl


/-! ## The registration shim: one lookup, one registration -/

/-- C1: in every environment, from every state and for every handle h, one call of
GmsServicesPluginCApiRegisterWithRegistrar makes exactly the calls
[GetRegistrar h, RegisterWithRegistrar r], where r is the value the manager lookup returned
for h in that state.  So RegisterWithRegistrar is invoked exactly once, with exactly the
looked-up registrar, the lookup is made once and on h itself, and the state left is the one
registration leaves when started in the state the lookup left. -/
theorem shim_registers_resolved_once {H R σ : Type} (host : Host H R σ) (h : H) (s : σ) :
    ((GmsServicesPluginCApiRegisterWithRegistrar h).run host s).1 =
        [Call.GetRegistrar h, Call.RegisterWithRegistrar (host.GetRegistrar h s).1] ∧
      registrations ((GmsServicesPluginCApiRegisterWithRegistrar h).run host s).1 =
        [(host.GetRegistrar h s).1] ∧
      lookups ((GmsServicesPluginCApiRegisterWithRegistrar h).run host s).1 = [h] ∧
      ((GmsServicesPluginCApiRegisterWithRegistrar h).run host s).2 =
        host.RegisterWithRegistrar (host.GetRegistrar h s).1 (host.GetRegistrar h s).2 :=
  ⟨rfl, rfl, rfl, rfl⟩

/-- Instance of C1 in the sample environment: the first handle the manager sees resolves to
registrar 0, and that registrar is the one registered. -/
theorem shim_registers_resolved_once_demo :
    ((GmsServicesPluginCApiRegisterWithRegistrar (some 7)).run demoHost demoInit).1 =
        [Call.GetRegistrar (some 7), Call.RegisterWithRegistrar 0] ∧
      registrations ((GmsServicesPluginCApiRegisterWithRegistrar (some 7)).run demoHost
        demoInit).1 = [0] :=
  ⟨(shim_registers_resolved_once demoHost (some 7) demoInit).1,
    (shim_registers_resolved_once demoHost (some 7) demoInit).2.1⟩

/-! ## Failure of a callee -/

/-- C2: in every environment whose operations may fail, from every state and for every
handle h (a null one included, H being arbitrary), the shim asks the manager about h exactly
once and asks nothing else first.  When the lookup fails with e, the run is that single
call, it fails with e, and RegisterWithRegistrar is not called.  When the lookup returns r,
the run is the lookup followed by RegisterWithRegistrar r, and its result and final state
are those of that registration.  Hence the shim fails with e if and only if the lookup
fails with e, or the lookup returns some r and registering r fails with e. -/
theorem shim_fails_only_as_callee {H R ε σ : Type} (host : FallibleHost H R ε σ) (h : H)
    (s : σ) :
    lookups ((GmsServicesPluginCApiRegisterWithRegistrar h).runE host s).calls = [h] ∧
      (∀ e s1, host.GetRegistrar h s = (Except.error e, s1) →
        (GmsServicesPluginCApiRegisterWithRegistrar h).runE host s =
          ⟨[Call.GetRegistrar h], s1, Except.error e⟩) ∧
      (∀ r s1, host.GetRegistrar h s = (Except.ok r, s1) →
        (GmsServicesPluginCApiRegisterWithRegistrar h).runE host s =
          ⟨[Call.GetRegistrar h, Call.RegisterWithRegistrar r],
            (host.RegisterWithRegistrar r s1).2, (host.RegisterWithRegistrar r s1).1⟩) ∧
      (∀ e, ((GmsServicesPluginCApiRegisterWithRegistrar h).runE host s).result =
          Except.error e ↔
        ((host.GetRegistrar h s).1 = Except.error e ∨
          ∃ r, (host.GetRegistrar h s).1 = Except.ok r ∧
            (host.RegisterWithRegistrar r (host.GetRegistrar h s).2).1 = Except.error e)) := by
  rw [runE_shim]
  rcases hg : host.GetRegistrar h s with ⟨_ | r, s1⟩
  · simp [lookups]
  · rcases hr : host.RegisterWithRegistrar r s1 with ⟨_ | u, s2⟩ <;> simp [lookups, hr]

/-- Instances of C2 in the failing sample environment.  The null handle: the lookup fails
with code 1 and the run is the lookup alone.  Handle 7 when registrar 0 is already in the
registry: the lookup returns 0, registration fails with code 2, and so does the shim. -/
theorem shim_fails_only_as_callee_demo :
    (GmsServicesPluginCApiRegisterWithRegistrar none).runE demoFallibleHost demoInit =
        ⟨[Call.GetRegistrar none], demoInit, Except.error 1⟩ ∧
      (GmsServicesPluginCApiRegisterWithRegistrar (some 7)).runE demoFallibleHost ⟨[], [0]⟩ =
        ⟨[Call.GetRegistrar (some 7), Call.RegisterWithRegistrar 0], ⟨[some 7], [0]⟩,
          Except.error 2⟩ :=
  ⟨(shim_fails_only_as_callee demoFallibleHost none demoInit).2.1 1 demoInit rfl,
    (shim_fails_only_as_callee demoFallibleHost (some 7) ⟨[], [0]⟩).2.2.1 0 ⟨[some 7], [0]⟩
      rfl⟩

/-! ## No state of its own -/

/-- C5: in every environment and from every state, calling the shim on each handle of a
list hs in turn registers exactly the registrars of the reference list: the i-th
registration is the manager resolution of the i-th handle in the state the earlier calls
left.  There are exactly as many registrations as handles, the lookups are exactly hs in
order, and the calls made number twice the handles.  Calling twice with one handle h
registers twice.  A further call after any list of earlier calls is the run of the shim on
its handle from the state the environment is then in: nothing else is carried over. -/
theorem callEach_registers_each {H R σ : Type} (host : Host H R σ) (hs : List H) (s : σ) :
    registrations (callEach host hs s).1 = resolutions host hs s ∧
      (registrations (callEach host hs s).1).length = hs.length ∧
      lookups (callEach host hs s).1 = hs ∧
      (callEach host hs s).1.length = 2 * hs.length ∧
      (∀ h, registrations (callEach host [h, h] s).1 =
        [(host.GetRegistrar h s).1,
          (host.GetRegistrar h
            (host.RegisterWithRegistrar (host.GetRegistrar h s).1
              (host.GetRegistrar h s).2)).1]) ∧
      (∀ h, callEach host (hs ++ [h]) s =
        ((callEach host hs s).1 ++
            ((GmsServicesPluginCApiRegisterWithRegistrar h).run host (callEach host hs s).2).1,
          ((GmsServicesPluginCApiRegisterWithRegistrar h).run host (callEach host hs s).2).2)) := by
  refine ⟨registrations_callEach host hs s, ?_, lookups_callEach host hs s,
    length_callEach host hs s, fun h => rfl, fun h => ?_⟩
  · rw [registrations_callEach, length_resolutions]
  · rw [callEach_append]
    simp [callEach]

/-- Instance of C5 in the sample environment: three calls, the first and the last with the
same handle, give three registrations, and the repeated handle is registered both times. -/
theorem callEach_registers_each_demo :
    registrations (callEach demoHost [some 7, none, some 7] demoInit).1 = [0, 1, 0] ∧
      registrations (callEach demoHost [none, none] demoInit).1 = [0, 0] :=
  ⟨(callEach_registers_each demoHost [some 7, none, some 7] demoInit).1,
    (callEach_registers_each demoHost [none, none] demoInit).2.2.2.2.1 none⟩

end GmsServices
